import Mathlib

/-!
Formal model of the explorer query/enrichment layer of `lotus-backend-ts`
(`src/lib/api/routes/explorer.ts`), shallowly embedded in Lean 4.

Conventions of the embedding:
* JavaScript strings are Lean `String`s; character-level operations work on
  `String.data` (the list of characters).
* `BigInt` accumulation of satoshi values is modelled with `Nat` (Chronik
  reports output values as non-negative decimal strings, and the code only
  ever adds them), serialized with `toString`, which is decimal, exactly as
  `BigInt.prototype.toString`.
* Mutable state (the `counters` object, the `GEOIP_CACHE` map) is threaded
  explicitly.
* External collaborators that the repository only calls (the bitcore script
  library, the `Number` builtin, `Buffer.from(hex)`, the Chronik indexer and
  the geolocation fetch) are modelled from the behaviour the specification
  assigns to them at the call boundary; each such definition carries a
  `Modelled from the spec` doc comment.
-/

namespace Explorer

/-! ### Characters and hex decoding -/

/-- Decimal-digit test on a character (`0`-`9`), by code point. -/
def isDigitChar (c : Char) : Bool := 48 ≤ c.toNat && c.toNat ≤ 57

/-- Modelled from the spec boundary: value of one hexadecimal digit, as the
`Buffer.from(s, 'hex')` builtin accepts it (`0-9`, `a-f`, `A-F`). -/
def hexVal? (c : Char) : Option Nat :=
  if 48 ≤ c.toNat ∧ c.toNat ≤ 57 then some (c.toNat - 48)
  else if 97 ≤ c.toNat ∧ c.toNat ≤ 102 then some (c.toNat - 87)
  else if 65 ≤ c.toNat ∧ c.toNat ≤ 70 then some (c.toNat - 55)
  else none

/-- Modelled from the spec boundary: `Buffer.from(s, 'hex')` — decode
hexadecimal pairs from the left, stopping at the first pair that is not two
hex digits (Node's hex decoder truncates there, and drops a trailing lone
digit). -/
def hexToBytes : List Char → List Nat
  | c1 :: c2 :: rest =>
    match hexVal? c1, hexVal? c2 with
    | some h, some l => (16 * h + l) :: hexToBytes rest
    | _, _ => []
  | _ => []

/-- `String.prototype.startsWith` on the character level: does the first list
start with the second? -/
def listStartsWith : List Char → List Char → Bool
  | _, [] => true
  | [], _ :: _ => false
  | c :: cs, p :: ps => c == p && listStartsWith cs ps

/-! ### Pagination policy (`/address/:address` and `/blocks`)

Both route handlers contain the identical normalization
```
const pageNum = Number(query.page) || 1
let pageSizeNum = Number(query.pageSize) || DEFAULT_PAGE_SIZE
if (pageSizeNum > MAX_PAGE_SIZE) { pageSizeNum = MAX_PAGE_SIZE }
```
-/

/-- `DEFAULT_PAGE_SIZE` from `explorer.ts`. -/
def DEFAULT_PAGE_SIZE : Int := 10

/-- `MAX_PAGE_SIZE` from `explorer.ts`. -/
def MAX_PAGE_SIZE : Int := 40

/-- The result of the JavaScript `Number(...)` conversion on a raw query
value: either `NaN` or a number (the values relevant to the pagination
logic are integers). -/
inductive JsNumber
  | nan
  | int (n : Int)
deriving DecidableEq

/-- Modelled from the spec boundary: the JavaScript `Number` builtin applied
to an absent query value (`Number(undefined)` is `NaN`), the empty string
(`Number('')` is `0`), a decimal integer literal with optional leading minus
sign, or any other (non-numeric) string, which yields `NaN`. -/
def jsNumber : Option String → JsNumber
  | none => JsNumber.nan
  | some s =>
    match s.data with
    | [] => JsNumber.int 0
    | '-' :: rest =>
      if !rest.isEmpty && rest.all isDigitChar then
        JsNumber.int (-(rest.foldl (fun a c => 10 * a + (c.toNat - 48)) 0 : Nat))
      else JsNumber.nan
    | cs =>
      if cs.all isDigitChar then
        JsNumber.int (cs.foldl (fun a c => 10 * a + (c.toNat - 48)) 0 : Nat)
      else JsNumber.nan

/-- `Number(x) || d`: `NaN` and `0` are falsy, every other number is kept. -/
def jsOrDefault (raw : JsNumber) (d : Int) : Int :=
  match raw with
  | JsNumber.nan => d
  | JsNumber.int n => if n = 0 then d else n

/-- `const pageNum = Number(query.page) || 1` from both handlers. -/
def effectivePage (raw : JsNumber) : Int := jsOrDefault raw 1

/-- The effective page size computed by both handlers:
`Number(query.pageSize) || DEFAULT_PAGE_SIZE`, then clamp values above
`MAX_PAGE_SIZE` down to `MAX_PAGE_SIZE`. -/
def effectivePageSize (raw : JsNumber) : Int :=
  let pageSizeNum := jsOrDefault raw DEFAULT_PAGE_SIZE
  if pageSizeNum > MAX_PAGE_SIZE then MAX_PAGE_SIZE else pageSizeNum

/-- The effective page size as a function of the raw query string. -/
def effectivePageSizeOfQuery (raw : Option String) : Int :=
  effectivePageSize (jsNumber raw)

/-! ### Transactions, the script library, and output enrichment -/

/-- A Chronik transaction output: a satoshi value (Chronik serializes it as
a non-negative decimal string; the code converts it with `BigInt`) and the
output script as a hex string. -/
structure TxOutput where
  value : Nat
  outputScript : String
deriving DecidableEq

/-- A Chronik transaction, restricted to the field the burn accounting and
block enrichment read: its list of outputs. -/
structure Tx where
  outputs : List TxOutput
deriving DecidableEq

/-- Modelled from the spec boundary: the script library's `isDataOut`
classification — a data-carrying (OP_RETURN) script is one that begins with
the null-data opcode `0x6a`. -/
def isDataOut (bs : List Nat) : Bool :=
  match bs with
  | b :: _ => b == 0x6a
  | [] => false

/-- Modelled from the spec boundary: `isPublicKeyHashOut` — the standard
25-byte P2PKH pattern `OP_DUP OP_HASH160 <20 bytes> OP_EQUALVERIFY
OP_CHECKSIG`. -/
def isPublicKeyHashOut (bs : List Nat) : Bool :=
  bs.length == 25 && bs.take 3 == [0x76, 0xa9, 0x14] && bs.drop 23 == [0x88, 0xac]

/-- Modelled from the spec boundary: `isScriptHashOut` — the standard
23-byte P2SH pattern `OP_HASH160 <20 bytes> OP_EQUAL`. -/
def isScriptHashOut (bs : List Nat) : Bool :=
  bs.length == 23 && bs.take 2 == [0xa9, 0x14] && bs.drop 22 == [0x87]

/-- Modelled from the spec boundary: `isTaprootOut` — a pay-to-taproot
script, beginning `OP_SCRIPTTYPE OP_1 <33-byte commitment>`. -/
def isTaprootOut (bs : List Nat) : Bool :=
  bs.length == 36 && bs.take 3 == [0x62, 0x51, 0x21]

/-- The disjunction of the three recognized address-type predicates, exactly
as both `toExplorerTxOutput` and `toExplorerTxInput` test it. -/
def isAddressTypeOut (bs : List Nat) : Bool :=
  isPublicKeyHashOut bs || isScriptHashOut bs || isTaprootOut bs

/-- One hexadecimal digit character (lowercase), for address rendering. -/
def hexChar (n : Nat) : Char := ("0123456789abcdef").data.getD n ('0')

/-- Lowercase hex rendering of a byte list. -/
def bytesToHex (bs : List Nat) : String :=
  String.mk ((bs.map (fun b => [hexChar (b / 16 % 16), hexChar (b % 16)])).flatten)

/-- Modelled from the spec boundary: the script library's script→address
encoding (`script.toAddress()` rendered as a string). Only its determinism
matters to the claims; the encoding is rendered from the script bytes. -/
def scriptAddressString (bs : List Nat) : String :=
  String.append ("lotus:") (bytesToHex bs)

/-- Modelled from the spec boundary: `script.toAddress()` as a fallible
decoding — an address exists exactly for the recognized address-type
scripts, otherwise the library yields a null-ish value (so that the
caller's `!`-dereference throws). -/
def scriptToAddress (bs : List Nat) : Option String :=
  if isAddressTypeOut bs then some (scriptAddressString bs) else none

/-- A decoded RANK payload, as produced by the protocol decoder. -/
structure TransactionOutputRANK where
  payload : List Nat
deriving DecidableEq

/-- Modelled from the spec boundary: `new ScriptProcessor(buf).processScriptRANK()`
— decoding succeeds exactly when the script carries the RANK LOKAD envelope
`OP_RETURN <push 4> 'R' 'A' 'N' 'K'`, and yields the structured remainder. -/
def processScriptRANK (bs : List Nat) : Option TransactionOutputRANK :=
  if bs.take 6 == [0x6a, 0x04, 0x52, 0x41, 0x4e, 0x4b] then
    some (TransactionOutputRANK.mk (bs.drop 6))
  else none

/-- The explorer-enriched output: the original output plus the optional
`address` and `rankOutput` fields (`none` models the field being absent,
as on the plain pass-through). -/
structure ExplorerTxOutput where
  value : Nat
  outputScript : String
  address : Option String
  rankOutput : Option TransactionOutputRANK
deriving DecidableEq

/-- The address-or-pass-through tail of `toExplorerTxOutput`: the code after
the OP_RETURN block, reached both when the script is not data-carrying and
when RANK decoding fails. -/
def addressOrPlain (output : TxOutput) (counters : Nat) (scriptBuf : List Nat) :
    ExplorerTxOutput × Nat :=
  if isAddressTypeOut scriptBuf then
    (ExplorerTxOutput.mk output.value output.outputScript
      (some (scriptAddressString scriptBuf)) none, counters)
  else
    (ExplorerTxOutput.mk output.value output.outputScript none none, counters)

/-- `toExplorerTxOutput(output, counters)` from `explorer.ts`: parse the hex
script; on a data-carrying script add the output value to
`counters.sumBurnedSats` and, when RANK decoding succeeds, return the output
with `rankOutput` attached; otherwise fall through to the address-type
check. The mutable `counters` object is threaded as the second component. -/
def toExplorerTxOutput (output : TxOutput) (counters : Nat) :
    ExplorerTxOutput × Nat :=
  let scriptBuf := hexToBytes output.outputScript.data
  if isDataOut scriptBuf then
    let counters := counters + output.value
    match processScriptRANK scriptBuf with
    | some rankOutput =>
      (ExplorerTxOutput.mk output.value output.outputScript none (some rankOutput),
        counters)
    | none => addressOrPlain output counters scriptBuf
  else addressOrPlain output counters scriptBuf

/-- `tx.outputs.map(o => toExplorerTxOutput(o, counters))` from the
`/tx/:txid` handler: map the converter over the outputs, threading the
shared `counters` accumulator left to right. -/
def processOutputs : List TxOutput → Nat → List ExplorerTxOutput × Nat
  | [], counters => ([], counters)
  | o :: rest, counters =>
    let r := toExplorerTxOutput o counters
    let rs := processOutputs rest r.2
    (r.1 :: rs.1, rs.2)

/-- The `sumBurnedSats` string field of the `/tx/:txid` response:
`counters.sumBurnedSats.toString()` after mapping all outputs, starting
from `0n`. -/
def txEndpointSumBurnedSats (tx : Tx) : String :=
  toString (processOutputs tx.outputs 0).2

/-- `getSumBurnedSats(tx)` from `explorer.ts`: reduce over the outputs,
adding the value of every output whose script hex starts with the two
characters `6a` and whose value is strictly positive. -/
def getSumBurnedSats (tx : Tx) : Nat :=
  tx.outputs.foldl
    (fun acc output =>
      if listStartsWith output.outputScript.data ['6', 'a'] ∧ 0 < output.value then
        acc + output.value
      else acc)
    0

/-- The `sumBurnedSats` string field attached to each transaction by the
`/address/:address` and `/block/:hashOrHeight` handlers:
`getSumBurnedSats(tx).toString()`. -/
def addressEndpointSumBurnedSats (tx : Tx) : String :=
  toString (getSumBurnedSats tx)

/-- Pointwise sum of a per-output contribution over a list of outputs
(proof-side helper for relating the different burn accumulators). -/
def sumBy (g : TxOutput → Nat) : List TxOutput → Nat
  | [] => 0
  | o :: rest => g o + sumBy g rest

/-- The sum the specification describes: the total value of the outputs
whose script is data-carrying and whose value is strictly positive. -/
def claimedBurnSum (tx : Tx) : Nat :=
  tx.outputs.foldl
    (fun acc output =>
      if isDataOut (hexToBytes output.outputScript.data) ∧ 0 < output.value then
        acc + output.value
      else acc)
    0

/-! ### Block lookup (`/block/:hashOrHeight`) -/

/-- The Chronik `blockInfo` header, restricted to the height the handler
reads. -/
structure BlockInfo where
  height : Nat
deriving DecidableEq

/-- A Chronik block: its header info and its transactions. -/
structure Block where
  blockInfo : BlockInfo
  txs : List Tx
deriving DecidableEq

/-- A transaction as serialized in the block response: the original
transaction, plus the `sumBurnedSats` field when the handler added it
(`none` models the field being absent, as on the genesis path). -/
structure TxResponse where
  tx : Tx
  sumBurnedSats : Option String
deriving DecidableEq

/-- The `/block/:hashOrHeight` response body: the block data, with
`minedBy` present only when the handler attached it. -/
structure BlockResponse where
  blockInfo : BlockInfo
  txs : List TxResponse
  minedBy : Option String
deriving DecidableEq

/-- The `/block/:hashOrHeight` handler from the point where the block has
been fetched: return the genesis block (height 0) as is; otherwise attach
`sumBurnedSats` to every transaction and derive `minedBy` from output
index 1 of transaction 0. A missing transaction, a missing second output,
or a script that does not decode to an address makes the corresponding
JavaScript dereference throw; the thrown error is modelled with
`Except.error`. -/
def blockHandler (block : Block) : Except String BlockResponse :=
  if block.blockInfo.height = 0 then
    Except.ok
      (BlockResponse.mk block.blockInfo
        (block.txs.map (fun tx => TxResponse.mk tx none)) none)
  else
    let txs := block.txs.map
      (fun tx => TxResponse.mk tx (some (addressEndpointSumBurnedSats tx)))
    match txs[0]? with
    | none => Except.error ("cannot read outputs of undefined")
    | some tx0 =>
      match tx0.tx.outputs[1]? with
      | none => Except.error ("cannot read outputScript of undefined")
      | some out1 =>
        match scriptToAddress (hexToBytes out1.outputScript.data) with
        | none => Except.error ("toAddress returned no address")
        | some addr =>
          Except.ok (BlockResponse.mk block.blockInfo txs (some addr))

/-! ### Block range listing (`/blocks`) -/

/-- The ascending list of integers from `lo` to `hi` inclusive. -/
def intRange (lo hi : Int) : List Int :=
  (List.range (hi + 1 - lo).toNat).map (fun (i : Nat) => lo + (i : Int))

/-- Modelled from the spec boundary: the indexer's `blocks(start, end)`
call — the existing blocks (identified by their heights, between 0 and the
tip) whose heights lie in the inclusive range, in ascending height order. -/
def chronikBlocks (startHeight endHeight tipHeight : Int) : List Int :=
  (intRange startHeight endHeight).filter (fun h => 0 ≤ h ∧ h ≤ tipHeight)

/-- The height window computed by the `/blocks` handler:
`startHeight = tipHeight - pageSizeNum * pageNum`, then the call
`chronikClient.blocks(startHeight + 1 > 0 ? startHeight + 1 : 1, endHeight)`
with `endHeight = startHeight + (pageSizeNum > MAX_PAGE_SIZE ?
MAX_PAGE_SIZE : pageSizeNum)`. -/
def blocksWindow (tipHeight pageNum pageSizeNum : Int) : Int × Int :=
  let startHeight := tipHeight - pageSizeNum * pageNum
  let endHeight := startHeight +
    (if pageSizeNum > MAX_PAGE_SIZE then MAX_PAGE_SIZE else pageSizeNum)
  (if startHeight + 1 > 0 then startHeight + 1 else 1, endHeight)

/-- The `/blocks` handler: normalize the query, compute the window, fetch
the blocks, and answer with the reversed (descending) list and the tip
height. -/
def blocksHandler (tipHeight : Int) (page pageSize : JsNumber) :
    List Int × Int :=
  let w := blocksWindow tipHeight (effectivePage page) (effectivePageSize pageSize)
  ((chronikBlocks w.1 w.2 tipHeight).reverse, tipHeight)

/-! ### Network overview (`/overview`): peer filtering, Geo Cache,
geolocation -/

/-- Geographic data attached to a peer (`GeoIPData`). -/
structure GeoIPData where
  country : String
  city : String
deriving DecidableEq

/-- A response of the external geolocation service (`GeoIPResponse`),
restricted to the fields the handler reads. -/
structure GeoIPResponse where
  success : Bool
  ip : String
  data : GeoIPData
deriving DecidableEq

/-- A peer as reported by the node RPC (`getPeerInfo`), restricted to the
address field the handler inspects. -/
structure Peer where
  addr : String
deriving DecidableEq

/-- A peer entry of the `/overview` response: the peer with its address
replaced by the bare IP and the geolocation data attached. -/
structure PeerOut where
  addr : String
  geoip : GeoIPData
deriving DecidableEq

/-- Modelled from the spec boundary: the outcome of
`await fetch(...).json()` for one IP — either the awaited pair throws
(network failure, non-JSON body), or it yields a parsed `GeoIPResponse`. -/
inductive FetchResult
  | threw
  | ok (response : GeoIPResponse)
deriving DecidableEq

/-- How one `/overview` request ends: the handler either threw (no response
is sent) or produced the peer list. -/
inductive OverviewOutcome
  | crashed
  | ok (peerInfo : List PeerOut)
deriving DecidableEq

/-- The observable effect of one `/overview` peer loop: its outcome, the
Geo Cache it leaves behind, and the IPs for which it issued external
geolocation calls, in order. -/
structure OverviewRun where
  outcome : OverviewOutcome
  cache : List (String × GeoIPResponse)
  fetched : List String
deriving DecidableEq

/-- `GEOIP_CACHE.get` / `GEOIP_CACHE.has` on the association-list model of
the cache. -/
def cacheGet : List (String × GeoIPResponse) → String → Option GeoIPResponse
  | [], _ => none
  | e :: rest, ip => if e.1 = ip then some e.2 else cacheGet rest ip

/-- `GEOIP_CACHE.set ip response` (the handler only calls it for keys it
just found absent). -/
def cacheSet (cache : List (String × GeoIPResponse)) (ip : String)
    (response : GeoIPResponse) : List (String × GeoIPResponse) :=
  (ip, response) :: cache

/-- Prepend a peer to the response under construction; a crashed run never
reaches `sendJSON`, so it absorbs the peer. -/
def consPeer (p : PeerOut) (r : OverviewRun) : OverviewRun :=
  match r.outcome with
  | OverviewOutcome.ok ps => OverviewRun.mk (OverviewOutcome.ok (p :: ps)) r.cache r.fetched
  | OverviewOutcome.crashed => r

/-- Record one issued external geolocation call. -/
def consFetch (ip : String) (r : OverviewRun) : OverviewRun :=
  OverviewRun.mk r.outcome r.cache (ip :: r.fetched)

/-- The `(1[6-9]|2[0-9]|3[0-1])\.` part of the IPv4 skip regex, applied to
the characters after `172.`. -/
def is172PrivateOctet : List Char → Bool
  | c1 :: c2 :: c3 :: _ =>
    ((c1 == '1' && ('6' ≤ c2 && c2 ≤ '9')) ||
     (c1 == '2' && isDigitChar c2) ||
     (c1 == '3' && (c2 == '0' || c2 == '1'))) && c3 == '.'
  | _ => false

/-- The first skip regex of the peer loop,
`/^(127\.|10\.|192\.168\.|172\.(1[6-9]|2[0-9]|3[0-1])\.|169\.254\.)/`,
applied to the full reported address. -/
def matchesPrivateIPv4 (s : String) : Bool :=
  listStartsWith s.data ['1', '2', '7', '.'] ||
  listStartsWith s.data ['1', '0', '.'] ||
  listStartsWith s.data ['1', '9', '2', '.', '1', '6', '8', '.'] ||
  (listStartsWith s.data ['1', '7', '2', '.'] && is172PrivateOctet (s.data.drop 4)) ||
  listStartsWith s.data ['1', '6', '9', '.', '2', '5', '4', '.']

/-- The `[fF][cCdD][0-9a-fA-F]{2}:` alternative of the IPv6 skip regex
(unique-local prefixes). -/
def isUniqueLocalStart : List Char → Bool
  | c0 :: c1 :: c2 :: c3 :: c4 :: _ =>
    (c0 == 'f' || c0 == 'F') &&
    (c1 == 'c' || c1 == 'C' || c1 == 'd' || c1 == 'D') &&
    (hexVal? c2).isSome && (hexVal? c3).isSome && c4 == ':'
  | _ => false

/-- The `[fF][eE][89aAbB][0-9a-fA-F]:` alternative of the IPv6 skip regex
(link-local prefixes). -/
def isLinkLocalStart : List Char → Bool
  | c0 :: c1 :: c2 :: c3 :: c4 :: _ =>
    (c0 == 'f' || c0 == 'F') &&
    (c1 == 'e' || c1 == 'E') &&
    (c2 == '8' || c2 == '9' || c2 == 'a' || c2 == 'A' || c2 == 'b' || c2 == 'B') &&
    (hexVal? c3).isSome && c4 == ':'
  | _ => false

/-- The second skip regex of the peer loop,
`/^(::1$|[fF][cCdD][0-9a-fA-F]{2}:|[fF][eE][89aAbB][0-9a-fA-F]:)/`,
applied to the full reported address. -/
def matchesPrivateIPv6 (s : String) : Bool :=
  s == "::1" || isUniqueLocalStart s.data || isLinkLocalStart s.data

/-- `const [ip] = peer.addr.split(/\:\d{1,5}$/)`: remove a trailing
`:digits` port suffix of one to five digits, when present. The regex can
match at most one position (everything after the matching colon must be a
digit, so the colon of a match is the last non-digit character), which this
definition finds from the right. -/
def stripPort (s : String) : String :=
  let rev := s.data.reverse
  let t := (rev.takeWhile isDigitChar).length
  if 1 ≤ t ∧ t ≤ 5 then
    match rev.drop t with
    | ':' :: rest => String.mk rest.reverse
    | _ => s
  else s

/-- The peer loop of the `/overview` handler: skip private addresses, strip
the port, consult the cache, otherwise call the external service via the
per-request `oracle`; an `await` that throws aborts the whole handler. -/
def processPeers (oracle : String → FetchResult) :
    List Peer → List (String × GeoIPResponse) → OverviewRun
  | [], cache => OverviewRun.mk (OverviewOutcome.ok []) cache []
  | peer :: rest, cache =>
    if matchesPrivateIPv4 peer.addr || matchesPrivateIPv6 peer.addr then
      processPeers oracle rest cache
    else
      let ip := stripPort peer.addr
      if ip = "" then processPeers oracle rest cache
      else
        match cacheGet cache ip with
        | some cached =>
          consPeer (PeerOut.mk ip cached.data) (processPeers oracle rest cache)
        | none =>
          match oracle ip with
          | FetchResult.threw => OverviewRun.mk OverviewOutcome.crashed cache [ip]
          | FetchResult.ok json =>
            if json.success then
              consFetch ip
                (consPeer (PeerOut.mk ip json.data)
                  (processPeers oracle rest (cacheSet cache ip json)))
            else consFetch ip (processPeers oracle rest cache)

/-- A sequence of `/overview` requests over the process lifetime: each
request brings its own peer list and its own external-service behaviour;
the Geo Cache persists from one request to the next (a crashed request
keeps the cache writes it made before throwing). Yields the final cache
and every IP for which an external call was issued. -/
def overviewSequence :
    List (List Peer × (String → FetchResult)) →
    List (String × GeoIPResponse) →
    List (String × GeoIPResponse) × List String
  | [], cache => (cache, [])
  | req :: rest, cache =>
    let r := processPeers req.2 req.1 cache
    let tail := overviewSequence rest r.cache
    (tail.1, r.fetched ++ tail.2)

/-! ## Helper lemmas -/

/-- Two characters with the same code point are equal. -/
theorem char_eq_of_toNat_eq {c d : Char} (h : c.toNat = d.toNat) : c = d :=
  Char.ext (UInt32.ext (by simpa using h))

/-- A hex digit value is at most 15. -/
theorem hexVal?_le {c : Char} {v : Nat} (h : hexVal? c = some v) : v ≤ 15 := by
  unfold hexVal? at h
  split_ifs at h with h1 h2 h3 <;> simp only [Option.some.injEq] at h <;> omega

/-- The only character whose hex value is 6 is `6`. -/
theorem hexVal?_eq_six {c : Char} (h : hexVal? c = some 6) : c = '6' := by
  have h54 : ('6' : Char).toNat = 54 := by decide
  unfold hexVal? at h
  split_ifs at h with h1 h2 h3 <;> simp only [Option.some.injEq] at h
  · exact char_eq_of_toNat_eq (by omega)
  · exact absurd h (by omega)
  · exact absurd h (by omega)

/-- The characters whose hex value is 10 are `a` and `A`. -/
theorem hexVal?_eq_ten {c : Char} (h : hexVal? c = some 10) : c = 'a' ∨ c = 'A' := by
  have h97 : ('a' : Char).toNat = 97 := by decide
  have h65 : ('A' : Char).toNat = 65 := by decide
  unfold hexVal? at h
  split_ifs at h with h1 h2 h3 <;> simp only [Option.some.injEq] at h
  · exact absurd h (by omega)
  · exact Or.inl (char_eq_of_toNat_eq (by omega))
  · exact Or.inr (char_eq_of_toNat_eq (by omega))

/-- On a script hex string that does not begin with the two characters
`6A`, the string test `startsWith('6a')` used by `getSumBurnedSats` agrees
with decoding the script and checking its first byte for the OP_RETURN
opcode (the classification used by `toExplorerTxOutput`). -/
theorem startsWith6a_eq_isDataOut (cs : List Char)
    (h6A : listStartsWith cs ['6', 'A'] = false) :
    listStartsWith cs ['6', 'a'] = isDataOut (hexToBytes cs) := by
  match cs with
  | [] => rfl
  | [c] =>
    simp [listStartsWith, hexToBytes, isDataOut]
  | c1 :: c2 :: rest =>
    by_cases hc1 : c1 = '6'
    · subst hc1
      have h16 : hexVal? ('6') = some 6 := by decide
      simp only [listStartsWith, beq_self_eq_true, Bool.true_and] at h6A ⊢
      cases hv2 : hexVal? c2 with
      | none =>
        have hc2 : (c2 == 'a') = false := by
          rw [beq_eq_false_iff_ne]
          intro h
          subst h
          exact absurd hv2 (by decide)
        simp [hexToBytes, h16, hv2, isDataOut, listStartsWith, hc2]
      | some l =>
        have hl : l ≤ 15 := hexVal?_le hv2
        by_cases hl10 : l = 10
        · subst hl10
          rcases hexVal?_eq_ten hv2 with hc2 | hc2
          · subst hc2
            simp [hexToBytes, h16, hv2, isDataOut, listStartsWith]
          · subst hc2
            simp [listStartsWith] at h6A
        · have hc2 : (c2 == 'a') = false := by
            rw [beq_eq_false_iff_ne]
            intro h
            subst h
            have : hexVal? ('a') = some 10 := by decide
            rw [this] at hv2
            exact hl10 (by simpa using hv2.symm)
          have hbyte : ((16 * 6 + l : Nat) == 106) = false := by
            rw [beq_eq_false_iff_ne]
            omega
          simp [hexToBytes, h16, hv2, isDataOut, listStartsWith, hc2, hbyte]
    · have hc1f : (c1 == ('6' : Char)) = false := by
        rw [beq_eq_false_iff_ne]
        exact hc1
      cases hv1 : hexVal? c1 with
      | none => simp [hexToBytes, hv1, isDataOut, listStartsWith, hc1f]
      | some h =>
        cases hv2 : hexVal? c2 with
        | none => simp [hexToBytes, hv1, hv2, isDataOut, listStartsWith, hc1f]
        | some l =>
          have hbyte : ((16 * h + l : Nat) == 106) = false := by
            rw [beq_eq_false_iff_ne]
            intro heq
            have hh : h ≤ 15 := hexVal?_le hv1
            have hl : l ≤ 15 := hexVal?_le hv2
            have h6 : h = 6 := by omega
            exact hc1 (hexVal?_eq_six (h6 ▸ hv1))
          simp [hexToBytes, hv1, hv2, isDataOut, listStartsWith, hc1f, hbyte]

/-- Folding the burn accumulator from an arbitrary start value. -/
theorem foldl_burn (p : TxOutput → Prop) [DecidablePred p] :
    ∀ (os : List TxOutput) (a : Nat),
      os.foldl (fun acc o => if p o then acc + o.value else acc) a =
        a + sumBy (fun o => if p o then o.value else 0) os := by
  intro os
  induction os with
  | nil => intro a; simp [sumBy]
  | cons o rest ih =>
    intro a
    by_cases hp : p o <;> simp [List.foldl_cons, hp, ih, sumBy] <;> omega

/-- `sumBy` only depends on the contributions of the list members. -/
theorem sumBy_congr {g1 g2 : TxOutput → Nat} :
    ∀ os : List TxOutput, (∀ o ∈ os, g1 o = g2 o) → sumBy g1 os = sumBy g2 os := by
  intro os
  induction os with
  | nil => intro _; rfl
  | cons o rest ih =>
    intro h
    simp only [sumBy, h o (by simp), ih fun o ho => h o (by simp [ho])]

/-- The per-output counter increment performed by `toExplorerTxOutput`. -/
theorem toExplorerTxOutput_counters (o : TxOutput) (c : Nat) :
    (toExplorerTxOutput o c).2 =
      c + (if isDataOut (hexToBytes o.outputScript.data) then o.value else 0) := by
  by_cases hd : isDataOut (hexToBytes o.outputScript.data)
  · cases hr : processScriptRANK (hexToBytes o.outputScript.data) <;>
      simp [toExplorerTxOutput, addressOrPlain, hd, hr] <;> split_ifs <;> rfl
  · simp [toExplorerTxOutput, addressOrPlain, hd]
    split_ifs <;> rfl

/-- The counter after mapping `toExplorerTxOutput` over a list of outputs is
the start value plus the total value of the data-carrying outputs. -/
theorem processOutputs_counters :
    ∀ (os : List TxOutput) (c : Nat),
      (processOutputs os c).2 =
        c + sumBy (fun o => if isDataOut (hexToBytes o.outputScript.data) then o.value else 0) os := by
  intro os
  induction os with
  | nil => intro c; simp [processOutputs, sumBy]
  | cons o rest ih =>
    intro c
    simp [processOutputs, ih, toExplorerTxOutput_counters, sumBy]
    omega

/-- Dropping zero-value outputs does not change a burn total. -/
theorem sumBy_pos_eq (p : List Nat → Bool) :
    ∀ os : List TxOutput,
      sumBy (fun o => if p (hexToBytes o.outputScript.data) ∧ 0 < o.value then o.value else 0) os =
        sumBy (fun o => if p (hexToBytes o.outputScript.data) then o.value else 0) os := by
  intro os
  induction os with
  | nil => rfl
  | cons o rest ih =>
    simp only [sumBy, ih]
    congr 1
    rcases Nat.eq_zero_or_pos o.value with hv | hv
    · simp [hv]
    · simp [hv]

/-- Summing the zero contribution gives zero. -/
theorem sumBy_zero : ∀ os : List TxOutput, sumBy (fun _ => 0) os = 0 := by
  intro os
  induction os with
  | nil => rfl
  | cons o rest ih => simp [sumBy, ih]

/-- `getSumBurnedSats` as a pointwise sum. -/
theorem getSumBurnedSats_eq_sumBy (tx : Tx) :
    getSumBurnedSats tx =
      sumBy (fun o => if listStartsWith o.outputScript.data ['6', 'a'] ∧ 0 < o.value
        then o.value else 0) tx.outputs := by
  simpa [getSumBurnedSats] using
    foldl_burn (fun o => listStartsWith o.outputScript.data ['6', 'a'] ∧ 0 < o.value)
      tx.outputs 0

/-- `claimedBurnSum` as a pointwise sum. -/
theorem claimedBurnSum_eq_sumBy (tx : Tx) :
    claimedBurnSum tx =
      sumBy (fun o => if isDataOut (hexToBytes o.outputScript.data) ∧ 0 < o.value
        then o.value else 0) tx.outputs := by
  simpa [claimedBurnSum] using
    foldl_burn (fun o => isDataOut (hexToBytes o.outputScript.data) ∧ 0 < o.value)
      tx.outputs 0

/-! ## Claims -/

/-- Claim C1 fails as stated: the output with script hex `6A` and value 5 is
data-carrying (its decoded script begins with the OP_RETURN opcode `0x6a`)
and has strictly positive value, yet the `sumBurnedSats` field computed by
`getSumBurnedSats` (the address-history and block endpoints) is `"0"`, not
`"5"`, because the code tests the hex string for the lowercase prefix `6a`
only. -/
theorem burnSum_uppercase_hex_counterexample :
    isDataOut (hexToBytes ("6A").data) = true ∧
    (0 : Nat) < 5 ∧
    claimedBurnSum (Tx.mk [TxOutput.mk 5 ("6A")]) = 5 ∧
    addressEndpointSumBurnedSats (Tx.mk [TxOutput.mk 5 ("6A")]) = ("0") := by
  refine ⟨by decide, by decide, by decide, ?_⟩
  decide

/-- Claim C1 (amended): for every transaction none of whose output scripts
begins with the two characters `6A`, the `sumBurnedSats` field — both the
`getSumBurnedSats` form used by the address-history and block endpoints and
the `counters`-accumulated form used by the transaction endpoint — equals
the decimal string of the exact sum of the values of the data-carrying
(OP_RETURN) outputs with strictly positive value; outputs with value 0
never contribute, and a transaction with no data-carrying outputs yields
`"0"`. -/
theorem sumBurnedSats_eq_claimedBurnSum (tx : Tx)
    (h : ∀ o ∈ tx.outputs, listStartsWith o.outputScript.data ['6', 'A'] = false) :
    addressEndpointSumBurnedSats tx = toString (claimedBurnSum tx) ∧
    txEndpointSumBurnedSats tx = toString (claimedBurnSum tx) ∧
    ((∀ o ∈ tx.outputs, isDataOut (hexToBytes o.outputScript.data) = false) →
      addressEndpointSumBurnedSats tx = ("0")) := by
  have hnat : getSumBurnedSats tx = claimedBurnSum tx := by
    rw [getSumBurnedSats_eq_sumBy, claimedBurnSum_eq_sumBy]
    exact sumBy_congr tx.outputs fun o ho => by
      simp [startsWith6a_eq_isDataOut o.outputScript.data (h o ho)]
  have hdata : (processOutputs tx.outputs 0).2 =
      sumBy (fun o => if isDataOut (hexToBytes o.outputScript.data) then o.value else 0)
        tx.outputs := by
    simpa using processOutputs_counters tx.outputs 0
  refine ⟨congrArg toString hnat, ?_, ?_⟩
  · have : (processOutputs tx.outputs 0).2 = claimedBurnSum tx := by
      rw [hdata, claimedBurnSum_eq_sumBy, sumBy_pos_eq isDataOut tx.outputs]
    exact congrArg toString this
  · intro hz
    have hzero : claimedBurnSum tx = 0 := by
      rw [claimedBurnSum_eq_sumBy]
      have hz2 : sumBy
          (fun o => if isDataOut (hexToBytes o.outputScript.data) ∧ 0 < o.value
            then o.value else 0) tx.outputs =
          sumBy (fun _ => 0) tx.outputs :=
        sumBy_congr tx.outputs fun o ho => by simp [hz o ho]
      rw [hz2]
      exact sumBy_zero tx.outputs
    unfold addressEndpointSumBurnedSats
    rw [hnat, hzero]
    rfl

/-- Witness for the amended claim C1, at the specification's own example
shape: a RANK-less OP_RETURN output of value 100, a P2PKH output of value
500, and a zero-value OP_RETURN output; the burn total is exactly 100. -/
theorem sumBurnedSats_eq_claimedBurnSum_witness :
    addressEndpointSumBurnedSats
        (Tx.mk [TxOutput.mk 100 ("6a04deadbeef"),
          TxOutput.mk 500 ("76a914000102030405060708091011121314151617181988ac"),
          TxOutput.mk 0 ("6a")]) =
      toString (claimedBurnSum
        (Tx.mk [TxOutput.mk 100 ("6a04deadbeef"),
          TxOutput.mk 500 ("76a914000102030405060708091011121314151617181988ac"),
          TxOutput.mk 0 ("6a")])) ∧
    txEndpointSumBurnedSats
        (Tx.mk [TxOutput.mk 100 ("6a04deadbeef"),
          TxOutput.mk 500 ("76a914000102030405060708091011121314151617181988ac"),
          TxOutput.mk 0 ("6a")]) =
      toString (claimedBurnSum
        (Tx.mk [TxOutput.mk 100 ("6a04deadbeef"),
          TxOutput.mk 500 ("76a914000102030405060708091011121314151617181988ac"),
          TxOutput.mk 0 ("6a")])) ∧
    claimedBurnSum
        (Tx.mk [TxOutput.mk 100 ("6a04deadbeef"),
          TxOutput.mk 500 ("76a914000102030405060708091011121314151617181988ac"),
          TxOutput.mk 0 ("6a")]) = 100 :=
  ⟨(sumBurnedSats_eq_claimedBurnSum _ (by decide)).1,
   (sumBurnedSats_eq_claimedBurnSum _ (by decide)).2.1,
   by decide⟩

/-- Claim C10 fails as stated: on the transaction with a single output of
value 7 whose script hex is `6A021234`, the `/tx` endpoint's counter
accumulates 7 (the decoded script begins with OP_RETURN), while
`getSumBurnedSats` returns 0 (the hex string does not start with the
lowercase `6a`), so the two burn-total computations disagree. -/
theorem burn_totals_disagree_counterexample :
    (processOutputs (Tx.mk [TxOutput.mk 7 ("6A021234")]).outputs 0).2 = 7 ∧
    getSumBurnedSats (Tx.mk [TxOutput.mk 7 ("6A021234")]) = 0 ∧
    ¬ (processOutputs (Tx.mk [TxOutput.mk 7 ("6A021234")]).outputs 0).2 =
        getSumBurnedSats (Tx.mk [TxOutput.mk 7 ("6A021234")]) := by
  refine ⟨by decide, by decide, by decide⟩

/-- Claim C10 (amended): for every transaction none of whose output scripts
begins with the two characters `6A`, the total accumulated into
`counters.sumBurnedSats` by mapping `toExplorerTxOutput` over all outputs
(the `/tx` endpoint) equals the value returned by `getSumBurnedSats` (the
address-history and block endpoints). -/
theorem burn_totals_agree_lowercase (tx : Tx)
    (h : ∀ o ∈ tx.outputs, listStartsWith o.outputScript.data ['6', 'A'] = false) :
    (processOutputs tx.outputs 0).2 = getSumBurnedSats tx := by
  have hdata : (processOutputs tx.outputs 0).2 =
      sumBy (fun o => if isDataOut (hexToBytes o.outputScript.data) then o.value else 0)
        tx.outputs := by
    simpa using processOutputs_counters tx.outputs 0
  rw [hdata, getSumBurnedSats_eq_sumBy, ← sumBy_pos_eq isDataOut tx.outputs]
  exact (sumBy_congr tx.outputs fun o ho => by
    simp [startsWith6a_eq_isDataOut o.outputScript.data (h o ho)]).symm

/-- Witness for the amended claim C10 on a transaction with one RANK
OP_RETURN output and one non-script output; both totals are 21. -/
theorem burn_totals_agree_lowercase_witness :
    (processOutputs (Tx.mk [TxOutput.mk 21 ("6a0452414e4b"), TxOutput.mk 9 ("00")]).outputs 0).2 =
      getSumBurnedSats (Tx.mk [TxOutput.mk 21 ("6a0452414e4b"), TxOutput.mk 9 ("00")]) ∧
    getSumBurnedSats (Tx.mk [TxOutput.mk 21 ("6a0452414e4b"), TxOutput.mk 9 ("00")]) = 21 :=
  ⟨burn_totals_agree_lowercase _ (by decide), by decide⟩

/-- Claim C2 fails as stated: the raw query value `-5` is numeric and at
most 0, so the claim requires the effective page size to be
`DEFAULT_PAGE_SIZE`; but `Number('-5')` is `-5`, which is truthy and not
above `MAX_PAGE_SIZE`, so both handlers use `-5` as the page size. -/
theorem negative_pageSize_counterexample :
    jsNumber (some ("-5")) = JsNumber.int (-5) ∧
    (-5 : Int) ≤ 0 ∧
    effectivePageSizeOfQuery (some ("-5")) = -5 ∧
    ¬ effectivePageSizeOfQuery (some ("-5")) = DEFAULT_PAGE_SIZE := by
  refine ⟨by decide, by decide, by decide, by decide⟩

/-- Claim C2 (amended): for every raw `pageSize` query value that is
non-numeric, absent, or numerically zero, the effective page size used by
the address-history and blocks endpoints (whose normalization code is
identical) is `DEFAULT_PAGE_SIZE`; for every value above `MAX_PAGE_SIZE`
the effective size is exactly `MAX_PAGE_SIZE`, never a rejection; a
positive value within the bound is used as is, and a negative numeric value
passes through unclamped (it is not replaced by the default). -/
theorem effectivePageSize_normalization (raw : Option String) :
    ((jsNumber raw = JsNumber.nan ∨ jsNumber raw = JsNumber.int 0) →
      effectivePageSizeOfQuery raw = DEFAULT_PAGE_SIZE) ∧
    (∀ n : Int, jsNumber raw = JsNumber.int n → MAX_PAGE_SIZE < n →
      effectivePageSizeOfQuery raw = MAX_PAGE_SIZE) ∧
    (∀ n : Int, jsNumber raw = JsNumber.int n → 0 < n → n ≤ MAX_PAGE_SIZE →
      effectivePageSizeOfQuery raw = n) ∧
    (∀ n : Int, jsNumber raw = JsNumber.int n → n < 0 →
      effectivePageSizeOfQuery raw = n) := by
  refine ⟨?_, ?_, ?_, ?_⟩
  · rintro (hr | hr) <;>
      simp [effectivePageSizeOfQuery, hr, effectivePageSize, jsOrDefault,
        DEFAULT_PAGE_SIZE, MAX_PAGE_SIZE]
  · intro n hr hn
    simp only [effectivePageSizeOfQuery, hr, effectivePageSize, jsOrDefault,
      DEFAULT_PAGE_SIZE, MAX_PAGE_SIZE] at hn ⊢
    split_ifs <;> omega
  · intro n hr hn1 hn2
    simp only [effectivePageSizeOfQuery, hr, effectivePageSize, jsOrDefault,
      DEFAULT_PAGE_SIZE, MAX_PAGE_SIZE] at hn2 ⊢
    split_ifs <;> omega
  · intro n hr hn
    simp only [effectivePageSizeOfQuery, hr, effectivePageSize, jsOrDefault,
      DEFAULT_PAGE_SIZE, MAX_PAGE_SIZE] at hn ⊢
    split_ifs <;> omega

/-- Witness for the amended claim C2 at three concrete raw query values:
a non-numeric string, a value above the maximum, and an in-range value. -/
theorem effectivePageSize_normalization_witness :
    effectivePageSizeOfQuery (some ("abc")) = DEFAULT_PAGE_SIZE ∧
    effectivePageSizeOfQuery (some ("100")) = MAX_PAGE_SIZE ∧
    effectivePageSizeOfQuery (some ("25")) = 25 :=
  ⟨(effectivePageSize_normalization (some ("abc"))).1 (Or.inl (by decide)),
   (effectivePageSize_normalization (some ("100"))).2.1 100 (by decide) (by decide),
   (effectivePageSize_normalization (some ("25"))).2.2.1 25 (by decide) (by decide)
     (by decide)⟩

/-- A data-carrying script is never simultaneously a recognized
address-type script: the three address patterns begin with the opcodes
`0x76`, `0xa9` and `0x62`, never with the OP_RETURN opcode `0x6a`. -/
theorem not_addressType_of_dataOut (bs : List Nat) (h : isDataOut bs = true) :
    isAddressTypeOut bs = false := by
  cases bs with
  | nil => simp [isDataOut] at h
  | cons b t =>
    have hb : b = 0x6a := by simpa [isDataOut] using h
    subst hb
    simp [isAddressTypeOut, isPublicKeyHashOut, isScriptHashOut, isTaprootOut,
      List.take_succ_cons, beq_eq_false_iff_ne]

/-- Claim C9: `toExplorerTxOutput` classifies each output by mutually
exclusive cases in precedence order: a data-carrying script gets the RANK
payload attached exactly when protocol decoding succeeds and is otherwise
left unenriched; a non-data-carrying recognized address-type script gets
the derived address; anything else passes through unchanged. In every case
at most one of `address` and `rankOutput` is set, value and script are
preserved, and neither field is set for unrecognized scripts. -/
theorem toExplorerTxOutput_classification (output : TxOutput) (counters : Nat) :
    (¬ ((toExplorerTxOutput output counters).1.address.isSome = true ∧
        (toExplorerTxOutput output counters).1.rankOutput.isSome = true)) ∧
    ((toExplorerTxOutput output counters).1.value = output.value ∧
      (toExplorerTxOutput output counters).1.outputScript = output.outputScript) ∧
    (isDataOut (hexToBytes output.outputScript.data) = true →
      ∀ p, processScriptRANK (hexToBytes output.outputScript.data) = some p →
        (toExplorerTxOutput output counters).1.rankOutput = some p ∧
        (toExplorerTxOutput output counters).1.address = none) ∧
    (isDataOut (hexToBytes output.outputScript.data) = true →
      processScriptRANK (hexToBytes output.outputScript.data) = none →
      (toExplorerTxOutput output counters).1 =
        ExplorerTxOutput.mk output.value output.outputScript none none) ∧
    (isDataOut (hexToBytes output.outputScript.data) = false →
      isAddressTypeOut (hexToBytes output.outputScript.data) = true →
      (toExplorerTxOutput output counters).1.address =
        some (scriptAddressString (hexToBytes output.outputScript.data)) ∧
      (toExplorerTxOutput output counters).1.rankOutput = none) ∧
    (isDataOut (hexToBytes output.outputScript.data) = false →
      isAddressTypeOut (hexToBytes output.outputScript.data) = false →
      (toExplorerTxOutput output counters).1 =
        ExplorerTxOutput.mk output.value output.outputScript none none) := by
  by_cases hd : isDataOut (hexToBytes output.outputScript.data)
  · have ha := not_addressType_of_dataOut _ hd
    cases hr : processScriptRANK (hexToBytes output.outputScript.data) with
    | none => simp [toExplorerTxOutput, addressOrPlain, hd, hr, ha]
    | some p => simp [toExplorerTxOutput, hd, hr]
  · rw [Bool.not_eq_true] at hd
    by_cases ha : isAddressTypeOut (hexToBytes output.outputScript.data)
    · simp [toExplorerTxOutput, addressOrPlain, hd, ha]
    · rw [Bool.not_eq_true] at ha
      simp [toExplorerTxOutput, addressOrPlain, hd, ha]

/-- Witness for claim C9: a RANK OP_RETURN output gets its decoded payload
attached and no address. -/
theorem toExplorerTxOutput_classification_witness :
    (toExplorerTxOutput (TxOutput.mk 2 ("6a0452414e4b01")) 0).1.rankOutput =
      some (TransactionOutputRANK.mk [1]) ∧
    (toExplorerTxOutput (TxOutput.mk 2 ("6a0452414e4b01")) 0).1.address = none :=
  (toExplorerTxOutput_classification (TxOutput.mk 2 ("6a0452414e4b01")) 0).2.2.1
    (by decide) (TransactionOutputRANK.mk [1]) (by decide)

/-- The clamp never lets an effective page size exceed `MAX_PAGE_SIZE`. -/
theorem effectivePageSize_le_max (raw : JsNumber) :
    effectivePageSize raw ≤ MAX_PAGE_SIZE := by
  cases raw with
  | nan => decide
  | int n =>
    simp only [effectivePageSize, jsOrDefault, DEFAULT_PAGE_SIZE, MAX_PAGE_SIZE]
    split_ifs <;> omega

/-- Every height returned by the modelled indexer range call lies in the
requested window, is non-negative and does not exceed the tip. -/
theorem mem_chronikBlocks {lo hi tip b : Int}
    (hb : b ∈ chronikBlocks lo hi tip) :
    lo ≤ b ∧ b ≤ hi ∧ 0 ≤ b ∧ b ≤ tip := by
  simp only [chronikBlocks, List.mem_filter, intRange, List.mem_map,
    List.mem_range, decide_eq_true_eq] at hb
  obtain ⟨⟨i, hi2, rfl⟩, hcond⟩ := hb
  omega

/-- The modelled indexer range call returns at most `hi + 1 - lo` blocks. -/
theorem chronikBlocks_length (lo hi tip : Int) :
    (chronikBlocks lo hi tip).length ≤ (hi + 1 - lo).toNat := by
  calc (chronikBlocks lo hi tip).length
      ≤ (intRange lo hi).length := List.length_filter_le _ _
    _ = (hi + 1 - lo).toNat := by rw [intRange, List.length_map, List.length_range]

/-- The modelled indexer range call returns heights in strictly ascending
order. -/
theorem chronikBlocks_pairwise (lo hi tip : Int) :
    (chronikBlocks lo hi tip).Pairwise (· < ·) := by
  apply List.Pairwise.filter
  rw [intRange, List.pairwise_map]
  refine List.Pairwise.imp ?_ (List.pairwise_lt_range _)
  intro a b hab
  omega

/-- Claim C3: for every tip height, effective page number and effective
page size, the `/blocks` handler requests the inclusive height window
`[tipHeight - pageSize*page + 1, tipHeight - pageSize*page + pageSize]`
with the lower bound floored at 1 (so height 0 is never in the returned
list), and returns at most the clamped page size of blocks — never more
than `MAX_PAGE_SIZE` — in strictly descending height order. -/
theorem blocksHandler_window_spec (tipHeight : Int) (page pageSize : JsNumber)
    (hpos : 1 ≤ effectivePageSize pageSize) :
    blocksWindow tipHeight (effectivePage page) (effectivePageSize pageSize) =
      (max (tipHeight - effectivePageSize pageSize * effectivePage page + 1) 1,
        tipHeight - effectivePageSize pageSize * effectivePage page +
          effectivePageSize pageSize) ∧
    1 ≤ (blocksWindow tipHeight (effectivePage page) (effectivePageSize pageSize)).1 ∧
    (∀ b ∈ (blocksHandler tipHeight page pageSize).1, 1 ≤ b) ∧
    ((blocksHandler tipHeight page pageSize).1.length : Int) ≤
      effectivePageSize pageSize ∧
    ((blocksHandler tipHeight page pageSize).1.length : Int) ≤ MAX_PAGE_SIZE ∧
    (blocksHandler tipHeight page pageSize).1.Pairwise (· > ·) := by
  have hmax : effectivePageSize pageSize ≤ MAX_PAGE_SIZE :=
    effectivePageSize_le_max pageSize
  set ps := effectivePageSize pageSize with hps
  set p := effectivePage page with hp
  set s := tipHeight - ps * p with hs
  have hw : blocksWindow tipHeight p ps = (max (s + 1) 1, s + ps) := by
    simp only [blocksWindow, ← hs]
    have hnc : ¬ ps > MAX_PAGE_SIZE := by omega
    rw [if_neg hnc]
    simp only [Prod.mk.injEq]
    refine ⟨?_, by trivial⟩
    split_ifs <;> omega
  have hlist : (blocksHandler tipHeight page pageSize).1 =
      (chronikBlocks (max (s + 1) 1) (s + ps) tipHeight).reverse := by
    simp only [blocksHandler, ← hp, ← hps, hw]
  refine ⟨hw, ?_, ?_, ?_, ?_, ?_⟩
  · rw [hw]
    exact le_max_right _ _
  · intro b hb
    rw [hlist, List.mem_reverse] at hb
    have hfacts := mem_chronikBlocks hb
    have hlo1 : (1 : Int) ≤ max (s + 1) 1 := le_max_right _ _
    omega
  · rw [hlist, List.length_reverse]
    have hl := chronikBlocks_length (max (s + 1) 1) (s + ps) tipHeight
    have hlo1 : (1 : Int) ≤ max (s + 1) 1 := le_max_right _ _
    have hlo2 : s + 1 ≤ max (s + 1) 1 := le_max_left _ _
    omega
  · rw [hlist, List.length_reverse]
    have hl := chronikBlocks_length (max (s + 1) 1) (s + ps) tipHeight
    have hlo1 : (1 : Int) ≤ max (s + 1) 1 := le_max_right _ _
    have hlo2 : s + 1 ≤ max (s + 1) 1 := le_max_left _ _
    omega
  · rw [hlist, List.pairwise_reverse]
    exact chronikBlocks_pairwise _ _ _

/-- Witness for claim C3, matching the specification's end-to-end example
shape: `page=1`, `pageSize=100` with a tip at height 10 clamps the size to
40 and returns the 10 existing non-genesis blocks in descending order. -/
theorem blocksHandler_window_spec_witness :
    1 ≤ effectivePageSize (JsNumber.int 100) ∧
    ((blocksHandler 10 (JsNumber.int 1) (JsNumber.int 100)).1.length : Int) ≤
      MAX_PAGE_SIZE ∧
    (blocksHandler 10 (JsNumber.int 1) (JsNumber.int 100)).1.Pairwise (· > ·) ∧
    blocksHandler 10 (JsNumber.int 1) (JsNumber.int 100) =
      ([10, 9, 8, 7, 6, 5, 4, 3, 2, 1], 10) :=
  ⟨by decide,
   (blocksHandler_window_spec 10 (JsNumber.int 1) (JsNumber.int 100)
      (by decide)).2.2.2.2.1,
   (blocksHandler_window_spec 10 (JsNumber.int 1) (JsNumber.int 100)
      (by decide)).2.2.2.2.2,
   by decide⟩

/-- `consPeer` never touches the cache. -/
theorem consPeer_cache (p : PeerOut) (r : OverviewRun) :
    (consPeer p r).cache = r.cache := by
  cases r with
  | mk o c f => cases o <;> rfl

/-- `consPeer` never touches the fetch log. -/
theorem consPeer_fetched (p : PeerOut) (r : OverviewRun) :
    (consPeer p r).fetched = r.fetched := by
  cases r with
  | mk o c f => cases o <;> rfl

/-- Claim C4 fails as stated: the peer reported as `::1:1234` strips to the
bare IPv6 loopback IP `::1`, yet the skip regexes — applied to the full
address before the port is stripped, with the loopback alternative anchored
as `^::1$` — do not match it, so with a Geo Cache entry for `::1` the peer
appears in the `/overview` response. -/
theorem loopback_with_port_peer_counterexample :
    stripPort ("::1:1234") = ("::1") ∧
    (matchesPrivateIPv4 ("::1:1234") || matchesPrivateIPv6 ("::1:1234")) = false ∧
    (processPeers (fun _ => FetchResult.threw) [Peer.mk ("::1:1234")]
        [(("::1"), GeoIPResponse.mk true ("::1") (GeoIPData.mk ("Somewhere") ("City")))]).outcome =
      OverviewOutcome.ok [PeerOut.mk ("::1") (GeoIPData.mk ("Somewhere") ("City"))] := by
  refine ⟨by decide, by decide, by decide⟩

/-- Claim C4 (amended): the privacy filter is applied to the full reported
peer address before the port is stripped; every peer whose full address
matches the private patterns — the IPv4 prefixes `127.`, `10.`,
`192.168.`, `172.16.`–`172.31.`, `169.254.`, the exact string `::1`, or
the IPv6 unique-local (`fc`/`fd`) and link-local (`fe8`–`feb`) prefixes —
is discarded before the cache or the external service is consulted, and
never appears in the `/overview` response regardless of Geo Cache state.
(An IPv6 loopback peer written with a trailing port, such as `::1:1234`,
escapes the filter.) -/
theorem private_peer_skipped (oracle : String → FetchResult) (peer : Peer)
    (rest : List Peer) (cache : List (String × GeoIPResponse))
    (h : (matchesPrivateIPv4 peer.addr || matchesPrivateIPv6 peer.addr) = true) :
    processPeers oracle (peer :: rest) cache = processPeers oracle rest cache := by
  simp [processPeers, h]

/-- Witness for the amended claim C4: a private IPv4 peer with a port is
dropped and the remaining run returns the empty peer list. -/
theorem private_peer_skipped_witness :
    processPeers (fun _ => FetchResult.threw) [Peer.mk ("192.168.1.5:1234")] [] =
      processPeers (fun _ => FetchResult.threw) ([] : List Peer) [] ∧
    (processPeers (fun _ => FetchResult.threw) [Peer.mk ("192.168.1.5:1234")] []).outcome =
      OverviewOutcome.ok [] :=
  ⟨private_peer_skipped (fun _ => FetchResult.threw) (Peer.mk ("192.168.1.5:1234"))
      [] [] (by decide),
   by decide⟩

/-- One `/overview` peer loop neither re-fetches nor overwrites a cache key
that is already populated. -/
theorem processPeers_cache_stable (oracle : String → FetchResult) (ip : String)
    (r : GeoIPResponse) :
    ∀ (peers : List Peer) (cache : List (String × GeoIPResponse)),
      cacheGet cache ip = some r →
      cacheGet (processPeers oracle peers cache).cache ip = some r ∧
      ip ∉ (processPeers oracle peers cache).fetched := by
  intro peers
  induction peers with
  | nil =>
    intro cache h
    constructor
    · simpa [processPeers] using h
    · simp [processPeers]
  | cons peer rest ih =>
    intro cache h
    by_cases hm : (matchesPrivateIPv4 peer.addr || matchesPrivateIPv6 peer.addr) = true
    · simpa [processPeers, hm] using ih cache h
    · rw [Bool.not_eq_true] at hm
      by_cases hip : stripPort peer.addr = ""
      · simpa [processPeers, hm, hip] using ih cache h
      · cases hc : cacheGet cache (stripPort peer.addr) with
        | some cached =>
          simpa [processPeers, hm, hip, hc, consPeer_cache, consPeer_fetched] using
            ih cache h
        | none =>
          have hne : ¬ stripPort peer.addr = ip := by
            intro he
            rw [he, h] at hc
            exact Option.noConfusion hc
          cases ho : oracle (stripPort peer.addr) with
          | threw =>
            refine ⟨?_, ?_⟩ <;> simp [processPeers, hm, hip, hc, ho]
            · exact h
            · exact fun he => hne he.symm
          | ok json =>
            by_cases hs : json.success = true
            · have h2 : cacheGet (cacheSet cache (stripPort peer.addr) json) ip =
                  some r := by
                simpa [cacheSet, cacheGet, hne] using h
              have hrec := ih _ h2
              refine ⟨?_, ?_⟩ <;>
                simp [processPeers, hm, hip, hc, ho, hs, consFetch,
                  consPeer_cache, consPeer_fetched]
              · exact hrec.1
              · exact ⟨fun he => hne he.symm, hrec.2⟩
            · rw [Bool.not_eq_true] at hs
              have hrec := ih cache h
              refine ⟨?_, ?_⟩ <;>
                simp [processPeers, hm, hip, hc, ho, hs, consFetch]
              · exact hrec.1
              · exact ⟨fun he => hne he.symm, hrec.2⟩

/-- Claim C5: the Geo Cache is write-once per key — once an entry exists
for a bare IP, no later `/overview` request in the process lifetime issues
another external geolocation call for that IP, and the cached record is
never replaced. -/
theorem geoCache_write_once
    (requests : List (List Peer × (String → FetchResult)))
    (cache : List (String × GeoIPResponse)) (ip : String) (r : GeoIPResponse)
    (h : cacheGet cache ip = some r) :
    cacheGet (overviewSequence requests cache).1 ip = some r ∧
    ip ∉ (overviewSequence requests cache).2 := by
  induction requests generalizing cache with
  | nil =>
    constructor
    · simpa [overviewSequence] using h
    · simp [overviewSequence]
  | cons req rest ih =>
    have h1 := processPeers_cache_stable req.2 ip r req.1 cache h
    have h2 := ih (processPeers req.2 req.1 cache).cache h1.1
    constructor
    · simpa [overviewSequence] using h2.1
    · simp only [overviewSequence, List.mem_append]
      exact fun hmem => hmem.elim (fun hx => h1.2 hx) (fun hx => h2.2 hx)

/-- Witness for claim C5: with `1.2.3.4` already cached, a later request
for a peer at `1.2.3.4:56` issues no external call and leaves the record
unchanged. -/
theorem geoCache_write_once_witness :
    cacheGet
        (overviewSequence [([Peer.mk ("1.2.3.4:56")], fun _ => FetchResult.threw)]
          [(("1.2.3.4"), GeoIPResponse.mk true ("1.2.3.4") (GeoIPData.mk ("C") ("T")))]).1
        ("1.2.3.4") =
      some (GeoIPResponse.mk true ("1.2.3.4") (GeoIPData.mk ("C") ("T"))) ∧
    ("1.2.3.4") ∉
      (overviewSequence [([Peer.mk ("1.2.3.4:56")], fun _ => FetchResult.threw)]
        [(("1.2.3.4"), GeoIPResponse.mk true ("1.2.3.4") (GeoIPData.mk ("C") ("T")))]).2 :=
  geoCache_write_once [([Peer.mk ("1.2.3.4:56")], fun _ => FetchResult.threw)]
    [(("1.2.3.4"), GeoIPResponse.mk true ("1.2.3.4") (GeoIPData.mk ("C") ("T")))]
    ("1.2.3.4") (GeoIPResponse.mk true ("1.2.3.4") (GeoIPData.mk ("C") ("T")))
    (by decide)

/-- Claim C6 fails as stated: when the external lookup for a peer throws
(network failure or unparseable body — the `await fetch`/`json()` pair has
no try/catch), the whole `/overview` handler throws and no response is
sent, instead of omitting the peer and succeeding. -/
theorem geo_fetch_crash_counterexample :
    stripPort ("8.8.8.8:53") = ("8.8.8.8") ∧
    (processPeers (fun _ => FetchResult.threw) [Peer.mk ("8.8.8.8:53")] []).outcome =
      OverviewOutcome.crashed := by
  refine ⟨by decide, by decide⟩

/-- Claim C6 (amended): for every peer whose external geolocation call
returns a parsed response with `success` false, that peer is silently
omitted from the `/overview` result set and the cache is not populated for
its IP, while the rest of the request proceeds exactly as if the peer were
absent (only the fetch log records the attempt); a lookup that throws,
however, aborts the whole request. -/
theorem geo_unsuccessful_peer_omitted (oracle : String → FetchResult) (peer : Peer)
    (rest : List Peer) (cache : List (String × GeoIPResponse)) (json : GeoIPResponse)
    (h1 : (matchesPrivateIPv4 peer.addr || matchesPrivateIPv6 peer.addr) = false)
    (h2 : ¬ stripPort peer.addr = "")
    (h3 : cacheGet cache (stripPort peer.addr) = none)
    (h4 : oracle (stripPort peer.addr) = FetchResult.ok json)
    (h5 : json.success = false) :
    processPeers oracle (peer :: rest) cache =
      consFetch (stripPort peer.addr) (processPeers oracle rest cache) ∧
    (processPeers oracle (peer :: rest) cache).outcome =
      (processPeers oracle rest cache).outcome ∧
    (processPeers oracle (peer :: rest) cache).cache =
      (processPeers oracle rest cache).cache := by
  have hmain : processPeers oracle (peer :: rest) cache =
      consFetch (stripPort peer.addr) (processPeers oracle rest cache) := by
    simp [processPeers, h1, h2, h3, h4, h5]
  exact ⟨hmain, by rw [hmain]; rfl, by rw [hmain]; rfl⟩

/-- Witness for the amended claim C6: an unsuccessful response for
`9.9.9.9` leaves the peer out while the request still answers with the
empty peer list and an empty cache. -/
theorem geo_unsuccessful_peer_omitted_witness :
    stripPort ("9.9.9.9:1") = ("9.9.9.9") ∧
    processPeers
        (fun _ => FetchResult.ok
          (GeoIPResponse.mk false ("9.9.9.9") (GeoIPData.mk ("x") ("y"))))
        [Peer.mk ("9.9.9.9:1")] [] =
      consFetch (stripPort ("9.9.9.9:1"))
        (processPeers
          (fun _ => FetchResult.ok
            (GeoIPResponse.mk false ("9.9.9.9") (GeoIPData.mk ("x") ("y"))))
          ([] : List Peer) []) ∧
    (processPeers
        (fun _ => FetchResult.ok
          (GeoIPResponse.mk false ("9.9.9.9") (GeoIPData.mk ("x") ("y"))))
        [Peer.mk ("9.9.9.9:1")] []).outcome = OverviewOutcome.ok [] :=
  ⟨by decide,
   (geo_unsuccessful_peer_omitted
      (fun _ => FetchResult.ok
        (GeoIPResponse.mk false ("9.9.9.9") (GeoIPData.mk ("x") ("y"))))
      (Peer.mk ("9.9.9.9:1")) [] []
      (GeoIPResponse.mk false ("9.9.9.9") (GeoIPData.mk ("x") ("y")))
      (by decide) (by decide) (by decide) (by decide) (by decide)).1,
   by decide⟩

/-- Claim C7: for every block with height above 0 whose first (coinbase)
transaction exists, has a second output (index 1), and whose second
output's script decodes to an address, the block-lookup response carries
`minedBy` equal to that address; if any of these preconditions fails, the
handler's unchecked dereferences throw, so the request fails with an error
rather than answering with a silently defaulted value. -/
theorem blockHandler_minedBy (block : Block) (hpos : 0 < block.blockInfo.height) :
    (∀ tx0 out1 addr,
        block.txs[0]? = some tx0 →
        tx0.outputs[1]? = some out1 →
        scriptToAddress (hexToBytes out1.outputScript.data) = some addr →
        ∃ resp, blockHandler block = Except.ok resp ∧ resp.minedBy = some addr) ∧
    ((¬ ∃ tx0 out1, block.txs[0]? = some tx0 ∧ tx0.outputs[1]? = some out1 ∧
        (scriptToAddress (hexToBytes out1.outputScript.data)).isSome = true) →
      ∃ err, blockHandler block = Except.error err) := by
  have hne : ¬ block.blockInfo.height = 0 := by omega
  constructor
  · intro tx0 out1 addr h0 h1 h2
    have hmap : (block.txs.map
        (fun tx => TxResponse.mk tx (some (addressEndpointSumBurnedSats tx))))[0]? =
        some (TxResponse.mk tx0 (some (addressEndpointSumBurnedSats tx0))) := by
      rw [List.getElem?_map, h0]
      rfl
    refine ⟨BlockResponse.mk block.blockInfo
        (block.txs.map
          (fun tx => TxResponse.mk tx (some (addressEndpointSumBurnedSats tx))))
        (some addr), ?_, rfl⟩
    simp only [blockHandler, if_neg hne, hmap, h1, h2]
  · intro hfail
    cases h0 : block.txs[0]? with
    | none =>
      have hmap : (block.txs.map
          (fun tx => TxResponse.mk tx (some (addressEndpointSumBurnedSats tx))))[0]? =
          none := by
        rw [List.getElem?_map, h0]
        rfl
      exact ⟨("cannot read outputs of undefined"),
        by simp only [blockHandler, if_neg hne, hmap]⟩
    | some tx0 =>
      have hmap : (block.txs.map
          (fun tx => TxResponse.mk tx (some (addressEndpointSumBurnedSats tx))))[0]? =
          some (TxResponse.mk tx0 (some (addressEndpointSumBurnedSats tx0))) := by
        rw [List.getElem?_map, h0]
        rfl
      cases h1 : tx0.outputs[1]? with
      | none =>
        exact ⟨("cannot read outputScript of undefined"),
          by simp only [blockHandler, if_neg hne, hmap, h1]⟩
      | some out1 =>
        cases h2 : scriptToAddress (hexToBytes out1.outputScript.data) with
        | none =>
          exact ⟨("toAddress returned no address"),
            by simp only [blockHandler, if_neg hne, hmap, h1, h2]⟩
        | some addr =>
          exact absurd ⟨tx0, out1, h0, h1, by rw [h2]; rfl⟩ hfail

/-- Witness for claim C7 at a height-1 block whose coinbase pays a P2PKH
output at index 1. -/
theorem blockHandler_minedBy_witness :
    ∃ resp,
      blockHandler (Block.mk (BlockInfo.mk 1)
          [Tx.mk [TxOutput.mk 0 ("6a"),
            TxOutput.mk 5 ("76a914000102030405060708091011121314151617181988ac")]]) =
        Except.ok resp ∧
      resp.minedBy = some (scriptAddressString (hexToBytes
        ("76a914000102030405060708091011121314151617181988ac").data)) :=
  (blockHandler_minedBy
      (Block.mk (BlockInfo.mk 1)
        [Tx.mk [TxOutput.mk 0 ("6a"),
          TxOutput.mk 5 ("76a914000102030405060708091011121314151617181988ac")]])
      (by decide)).1
    (Tx.mk [TxOutput.mk 0 ("6a"),
      TxOutput.mk 5 ("76a914000102030405060708091011121314151617181988ac")])
    (TxOutput.mk 5 ("76a914000102030405060708091011121314151617181988ac"))
    (scriptAddressString (hexToBytes
      ("76a914000102030405060708091011121314151617181988ac").data))
    (by decide) (by decide) (by decide)

/-- Claim C8: a block-lookup request that resolves to the genesis block
(height 0) returns the upstream block unmodified — no `minedBy` field, the
transaction list unchanged, and no burn totals attached. -/
theorem blockHandler_genesis_unmodified (block : Block)
    (h : block.blockInfo.height = 0) :
    ∃ resp, blockHandler block = Except.ok resp ∧
      resp.minedBy = none ∧
      resp.blockInfo = block.blockInfo ∧
      resp.txs.map TxResponse.tx = block.txs ∧
      ∀ t ∈ resp.txs, t.sumBurnedSats = none := by
  refine ⟨BlockResponse.mk block.blockInfo
      (block.txs.map (fun tx => TxResponse.mk tx none)) none, ?_, rfl, rfl, ?_, ?_⟩
  · simp only [blockHandler, if_pos h]
  · have hcomp : (TxResponse.tx ∘ fun tx => TxResponse.mk tx none) = id := rfl
    rw [List.map_map, hcomp, List.map_id]
  · intro t ht
    simp only [List.mem_map] at ht
    obtain ⟨tx, _, rfl⟩ := ht
    rfl

/-- Witness for claim C8 on a concrete genesis block with one
OP_RETURN-carrying transaction. -/
theorem blockHandler_genesis_unmodified_witness :
    ∃ resp,
      blockHandler (Block.mk (BlockInfo.mk 0) [Tx.mk [TxOutput.mk 3 ("6a")]]) =
        Except.ok resp ∧
      resp.minedBy = none ∧
      resp.blockInfo = BlockInfo.mk 0 ∧
      resp.txs.map TxResponse.tx = [Tx.mk [TxOutput.mk 3 ("6a")]] ∧
      ∀ t ∈ resp.txs, t.sumBurnedSats = none :=
  blockHandler_genesis_unmodified
    (Block.mk (BlockInfo.mk 0) [Tx.mk [TxOutput.mk 3 ("6a")]]) rfl

end Explorer
